import Mathlib

/-!
Verification development for the session-to-transport routing layer of the
chess-mcp repository.

The embedding covers, from the source:
* `header` (step3 `src/lib/mcp/header.ts`): extraction of one header value out
  of a `Record<string, string | string[] | undefined> | undefined` mapping;
* `validUUID` (`uuid.ts`): the anchored case-insensitive regex
  `[0-9a-f]{8}-[0-9a-f]{4}-[0-9a-f]{4}-[0-9a-f]{4}-[0-9a-f]{12}`, compiled to
  an explicit matcher over the character list;
* `McpServerMiddleware` (step3 `src/lib/mcp/` middleware): the `transports`
  record, `newTransport`, the `onclose` / `onsessioninitialized` callbacks,
  and the `post` / `getDelete` request handlers;
* `saveGame` / `loadGame` (step5 `src/lib/store.ts`): the one-key-per-session
  FEN file store, over an explicit file-system map and a JSON string codec.

JavaScript `string | undefined` values are embedded as `Option String`;
JS truthiness of such a value (`undefined` and `""` are falsy) is `present`.
Mutation of the `transports` record is embedded as explicit state passing over
an association list with first-binding-wins lookup.
-/

namespace ChessMcp

/-- Value stored under a header name, JS `string | string[]`.  An entry whose
value is literally `undefined` is modelled by `none` in the surrounding
`Option` of `Headers`. -/
inductive HeaderValue where
  | scalar (s : String)
  | seq (ss : List String)
deriving DecidableEq

/-- JS `Record<string, string | string[] | undefined>`: association list from
header name to value. -/
abbrev Headers := List (String × Option HeaderValue)

/-- JS property read `headers[name]`: the first binding of the key, flattened
so that a missing key and a key bound to `undefined` both yield `none`. -/
def headerLookup (hs : Headers) (nm : String) : Option HeaderValue :=
  match hs.find? (fun p => p.1 == nm) with
  | none => none
  | some p => p.2

/-- Embedding of `header` (step3 `src/lib/mcp/header.ts`): if the headers
object is `undefined`, return `undefined`; read `headers[name]`; if the value
is an array return its element `0`; otherwise return the value unchanged. -/
def header (headers : Option Headers) (nm : String) : Option String :=
  match headers with
  | none => none
  | some hs =>
    match headerLookup hs nm with
    | some (HeaderValue.seq ss) => ss.head?
    | some (HeaderValue.scalar s) => some s
    | none => none

/-- The character class `[0-9a-f]` under the regex flag `i`. -/
def isHexDigit (c : Char) : Bool :=
  (('0' ≤ c) && (c ≤ '9')) || (('a' ≤ c) && (c ≤ 'f')) || (('A' ≤ c) && (c ≤ 'F'))

/-- Matcher for `[0-9a-f]{n}`: consume exactly `n` hex digits, return the rest. -/
def matchHexRun : Nat → List Char → Option (List Char)
  | 0, cs => some cs
  | _ + 1, [] => none
  | n + 1, c :: cs => if isHexDigit c then matchHexRun n cs else none

/-- Matcher for the literal `-` in the session-id regex. -/
def matchDash : List Char → Option (List Char)
  | [] => none
  | c :: cs => if c = '-' then some cs else none

/-- The anchored regex of `validUUID`,
`^[0-9a-f]{8}-[0-9a-f]{4}-[0-9a-f]{4}-[0-9a-f]{4}-[0-9a-f]{12}$` with flag `i`,
compiled to a matcher: the whole character list must be consumed. -/
def uuidRegexTest (cs : List Char) : Bool :=
  ((matchHexRun 8 cs).bind fun r1 =>
    (matchDash r1).bind fun r2 =>
      (matchHexRun 4 r2).bind fun r3 =>
        (matchDash r3).bind fun r4 =>
          (matchHexRun 4 r4).bind fun r5 =>
            (matchDash r5).bind fun r6 =>
              (matchHexRun 4 r6).bind fun r7 =>
                (matchDash r7).bind fun r8 =>
                  matchHexRun 12 r8) = some []

/-- JS truthiness of a `string | undefined` value: `undefined` and the empty
string are falsy, every other string is truthy. -/
def present (sid : Option String) : Bool :=
  match sid with
  | none => false
  | some s => s != ""

/-- Embedding of `validUUID` (`uuid.ts`, src/unnamed/part_000):
`if (!id) return false; return re.test(id);`. -/
def validUUID (id : Option String) : Bool :=
  match id with
  | none => false
  | some s => if s = "" then false else uuidRegexTest s.data

/-- A `StreamableHTTPServerTransport` as far as the middleware observes it:
whether it was constructed with a `sessionIdGenerator` function, and its
`sessionId` property (`string | undefined`). -/
structure Transport where
  sessionIdGeneratorPresent : Bool
  sessionId : Option String
deriving DecidableEq

/-- The `transports` record of `McpServerMiddleware`: session id to transport. -/
abbrev Registry := List (String × Transport)

/-- JS record read `this.transports[id]`. -/
def rget (r : Registry) (id : String) : Option Transport :=
  (r.find? (fun p => p.1 == id)).map (fun p => p.2)

/-- JS record write `this.transports[id] = t`. -/
def rput (r : Registry) (id : String) (t : Transport) : Registry :=
  (id, t) :: r.filter (fun p => p.1 != id)

/-- JS record removal `delete this.transports[id]`. -/
def rdelete (r : Registry) (id : String) : Registry :=
  r.filter (fun p => p.1 != id)

/-- The guard `sessionId && this.transports[sessionId]` of the request
handlers: a transport is found only when the extracted id is truthy and
registered. -/
def lookupTransport (r : Registry) (sid : Option String) : Option Transport :=
  match sid with
  | none => none
  | some id => if id = "" then none else rget r id

/-- Embedding of `McpServerMiddleware.newTransport` (registry effects only;
the construction of the MCP server and the connect call touch no middleware
state).  With a truthy `sessionId`: construct with `sessionIdGenerator:
undefined`, assign `transport.sessionId = sessionId`, and store the transport
under that id before returning.  Otherwise: construct with a generator and an
`onsessioninitialized` callback, registering nothing yet. -/
def newTransport (r : Registry) (sid : Option String) : Transport × Registry :=
  if present sid then
    let id := sid.getD ""
    let t : Transport := { sessionIdGeneratorPresent := false, sessionId := some id }
    (t, rput r id t)
  else
    ({ sessionIdGeneratorPresent := true, sessionId := none }, r)

/-- Embedding of the `transport.onclose` callback installed by `newTransport`
(in both construction modes the installed body is the same):
`if (transport.sessionId) delete this.transports[transport.sessionId]`. -/
def oncloseCallback (r : Registry) (t : Transport) : Registry :=
  match t.sessionId with
  | none => r
  | some id => if id = "" then r else rdelete r id

/-- Modelled from the spec for the SDK side: the generated-id transport, once
it observes the session-opening handshake, assigns the newly generated id to
its `sessionId` and invokes `onsessioninitialized` with that id.  The callback
body is from the source: `this.transports[sessionId] = transport`. -/
def onSessionInitialized (r : Registry) (t : Transport) (gid : String) :
    Transport × Registry :=
  let t1 : Transport := { t with sessionId := some gid }
  (t1, rput r gid t1)

/-- The JSON-RPC error envelope written by the 404 branch of `post`. -/
structure ErrorEnvelope where
  jsonrpc : String
  errorCode : Int
  errorMessage : String
  id : Option String
deriving DecidableEq

/-- The fixed envelope of the `post` handler's reject branch. -/
def noValidSessionEnvelope : ErrorEnvelope :=
  { jsonrpc := "2.0"
    errorCode := -32000
    errorMessage := "Bad Request: No valid session ID provided"
    id := none }

/-- Outcome of the `post` handler (also installed for GET): which transport
the request body is forwarded to, or the rejection response. -/
inductive PostOutcome where
  | resume (t : Transport)
  | fresh (t : Transport)
  | reject (status : Nat) (envelope : ErrorEnvelope)
deriving DecidableEq

/-- Embedding of `McpServerMiddleware.post`: the decision chain
`if (sessionId && this.transports[sessionId]) ... else if ((!sessionId &&
isInitializeRequest(req.body)) || validUUID(sessionId)) ... else 404`,
returning the outcome together with the `transports` record after the
handler ran. -/
def postStep (r : Registry) (sid : Option String) (isInitMsg : Bool) :
    PostOutcome × Registry :=
  match lookupTransport r sid with
  | some t => (PostOutcome.resume t, r)
  | none =>
    if (!(present sid) && isInitMsg) || validUUID sid then
      let tr := newTransport r sid
      (PostOutcome.fresh tr.1, tr.2)
    else
      (PostOutcome.reject 404 noValidSessionEnvelope, r)

/-- JS `s.slice(0, n)`: the first `n` characters. -/
def sliceJS (s : String) (n : Nat) : String :=
  String.mk (s.data.take n)

/-- Outcome of the DELETE handler. -/
inductive DeleteOutcome where
  | forwarded (t : Transport)
  | badRequest (body : String)
deriving DecidableEq

/-- Embedding of `McpServerMiddleware.getDelete`: forward to
`sessionId && this.transports[sessionId]` when that is truthy, otherwise
respond 400 with the diagnostic naming the id truncated by `slice(0, 8)`,
or the literal string `none` if the id is falsy. -/
def getDelete (r : Registry) (sid : Option String) : DeleteOutcome :=
  match lookupTransport r sid with
  | some t => DeleteOutcome.forwarded t
  | none =>
    DeleteOutcome.badRequest
      ("Invalid or missing session ID: " ++
        (match sid with
         | some s => if s = "" then "none" else sliceJS s 8
         | none => "none"))

/-- Modelled from the spec for the external chess rule engine (`chess.js`, an
out-of-scope collaborator exposing `positionFEN`): a game value carries its
current position as a FEN string and its move history; `new Chess(fen)`
reconstructs the position from the FEN alone, with an empty history. -/
structure ChessGame where
  fen : String
  history : List String
deriving DecidableEq

/-- Modelled from the spec: `new Chess(fen)` of the external engine. -/
def chessFromFen (f : String) : ChessGame :=
  { fen := f, history := [] }

/-- The file system as observed by the store: a map from path to contents,
first binding wins (a write shadows older bindings of the same path). -/
abbrev FS := List (String × String)

/-- `existsSync(path)`. -/
def existsSyncFS (fs : FS) (path : String) : Bool :=
  (fs.find? (fun p => p.1 == path)).isSome

/-- `readFile(path)`. -/
def readFileFS (fs : FS) (path : String) : Option String :=
  (fs.find? (fun p => p.1 == path)).map (fun p => p.2)

/-- `writeFile(path, contents)`. -/
def writeFileFS (fs : FS) (path : String) (contents : String) : FS :=
  (path, contents) :: fs

/-- JS template interpolation of a `string | undefined` value: `undefined`
prints as the literal text `undefined`. -/
def jsShowOpt (s : Option String) : String :=
  s.getD "undefined"

/-- The path used by both store operations: `./games/(sessionId).json`. -/
def gamePath (sid : Option String) : String :=
  "./games/" ++ jsShowOpt sid ++ ".json"

/-- Hex digit emitted by `JSON.stringify` inside a `\u00..` escape. -/
def toHexDigit (n : Nat) : Char :=
  if n < 10 then Char.ofNat (48 + n) else Char.ofNat (87 + n)

/-- Value of a hex digit accepted by `JSON.parse` inside a `\u....` escape. -/
def fromHexDigit (c : Char) : Option Nat :=
  if ('0' ≤ c) && (c ≤ '9') then some (c.toNat - 48)
  else if ('a' ≤ c) && (c ≤ 'f') then some (c.toNat - 87)
  else if ('A' ≤ c) && (c ≤ 'F') then some (c.toNat - 55)
  else none

/-- Modelled from the platform builtin `JSON.stringify` restricted to string
values: the escaping of one character. -/
def encodeChar (c : Char) : List Char :=
  if c = '"' then ['\\', '"']
  else if c = '\\' then ['\\', '\\']
  else if c = Char.ofNat 8 then ['\\', 'b']
  else if c = Char.ofNat 9 then ['\\', 't']
  else if c = Char.ofNat 10 then ['\\', 'n']
  else if c = Char.ofNat 12 then ['\\', 'f']
  else if c = Char.ofNat 13 then ['\\', 'r']
  else if c.toNat < 32 then
    ['\\', 'u', '0', '0', toHexDigit (c.toNat / 16), toHexDigit (c.toNat % 16)]
  else [c]

/-- Modelled from the platform builtin `JSON.stringify` restricted to string
values (the indent argument does not affect a top-level string): the quoted,
escaped form. -/
def jsonStringifyString (s : String) : String :=
  String.mk ('"' :: (s.data.flatMap encodeChar ++ ['"']))

/-- Lift a decoded head character onto a partial decoding result. -/
def consDecoded (c : Char) (r : Option (List Char × List Char)) :
    Option (List Char × List Char) :=
  r.map (fun p => (c :: p.1, p.2))

/-- Modelled from the platform builtin `JSON.parse` restricted to string
literals: decode the body after the opening quote, returning the decoded
content and the input remaining after the closing quote. -/
def decodeChars : List Char → Option (List Char × List Char)
  | [] => none
  | c :: rest =>
    if c = '"' then some ([], rest)
    else if c = '\\' then
      match rest with
      | [] => none
      | e :: r2 =>
        if e = '"' then consDecoded '"' (decodeChars r2)
        else if e = '\\' then consDecoded '\\' (decodeChars r2)
        else if e = '/' then consDecoded '/' (decodeChars r2)
        else if e = 'b' then consDecoded (Char.ofNat 8) (decodeChars r2)
        else if e = 't' then consDecoded (Char.ofNat 9) (decodeChars r2)
        else if e = 'n' then consDecoded (Char.ofNat 10) (decodeChars r2)
        else if e = 'f' then consDecoded (Char.ofNat 12) (decodeChars r2)
        else if e = 'r' then consDecoded (Char.ofNat 13) (decodeChars r2)
        else if e = 'u' then
          match r2 with
          | h1 :: h2 :: h3 :: h4 :: r3 =>
            match fromHexDigit h1, fromHexDigit h2, fromHexDigit h3, fromHexDigit h4 with
            | some a, some b, some c2, some d =>
              consDecoded (Char.ofNat (((a * 16 + b) * 16 + c2) * 16 + d)) (decodeChars r3)
            | _, _, _, _ => none
          | _ => none
        else none
    else if c.toNat < 32 then none
    else consDecoded c (decodeChars rest)

/-- Modelled from the platform builtin `JSON.parse` restricted to string
literals: the whole input must be one quoted string. -/
def jsonParseString (s : String) : Option String :=
  match s.data with
  | '"' :: rest =>
    match decodeChars rest with
    | some (content, []) => some (String.mk content)
    | _ => none
  | _ => none

/-- Embedding of `saveGame` (step5 `src/lib/store.ts`): write
`JSON.stringify(game.fen(), null, 2)` to `./games/(sessionId).json` (the
`mkdir` of the games directory has no effect in the flat file-system map). -/
def saveGame (fs : FS) (sid : Option String) (game : ChessGame) : FS :=
  writeFileFS fs (gamePath sid) (jsonStringifyString game.fen)

/-- Embedding of `loadGame` (step5 `src/lib/store.ts`): return `null` when the
file is missing or the session id is falsy; otherwise read the file, parse the
FEN string out of it (a parse failure is the thrown exception, `Except.error`)
and rebuild a game from that FEN alone. -/
def loadGame (fs : FS) (sid : Option String) : Except String (Option ChessGame) :=
  if !(existsSyncFS fs (gamePath sid)) || !(present sid) then
    Except.ok none
  else
    match readFileFS fs (gamePath sid) with
    | none => Except.error "ENOENT"
    | some data =>
      match jsonParseString data with
      | none => Except.error "SyntaxError"
      | some fen => Except.ok (some (chessFromFen fen))

/-- A hex group of the spec's wording: exactly `n` characters, all hexadecimal
(case-insensitive). -/
def isHexGroup (g : List Char) (n : Nat) : Prop :=
  g.length = n ∧ ∀ c ∈ g, isHexDigit c = true

/-- The spec's wording of the session-id shape: exactly five hexadecimal
groups of lengths 8, 4, 4, 4, 12, separated by hyphens, nothing around. -/
def uuidShape (s : String) : Prop :=
  ∃ g1 g2 g3 g4 g5 : List Char,
    s.data = g1 ++ '-' :: (g2 ++ '-' :: (g3 ++ '-' :: (g4 ++ '-' :: g5))) ∧
    isHexGroup g1 8 ∧ isHexGroup g2 4 ∧ isHexGroup g3 4 ∧
    isHexGroup g4 4 ∧ isHexGroup g5 12

/-- The registry invariant: every entry maps a session id to a transport whose
own `sessionId` property is that id. -/
def RegistryConsistent (r : Registry) : Prop :=
  ∀ p ∈ r, p.2.sessionId = some p.1

/-! Registry lemmas. -/

theorem rget_rput_self (r : Registry) (id : String) (t : Transport) :
    rget (rput r id t) id = some t := by
  simp [rget, rput, List.find?_cons]

theorem rget_rdelete_self (r : Registry) (id : String) :
    rget (rdelete r id) id = none := by
  have h : (rdelete r id).find? (fun p => p.1 == id) = none := by
    rw [List.find?_eq_none]
    intro p hp
    have h2 := (List.mem_filter.mp hp).2
    simp only [bne_iff_ne, ne_eq] at h2
    simp [h2]
  simp [rget, h]

theorem rget_eq_some_mem (r : Registry) (id : String) (t : Transport)
    (h : rget r id = some t) : (id, t) ∈ r := by
  unfold rget at h
  obtain ⟨p, hp, hpt⟩ := Option.map_eq_some'.mp h
  have h1 := List.find?_some hp
  have h2 := List.mem_of_find?_eq_some hp
  have h3 : p.1 = id := by simpa using h1
  cases p
  simp_all

theorem registryConsistent_rput (r : Registry) (id : String) (t : Transport)
    (hr : RegistryConsistent r) (ht : t.sessionId = some id) :
    RegistryConsistent (rput r id t) := by
  intro p hp
  rcases List.mem_cons.mp hp with h | h
  · subst h; exact ht
  · exact hr p (List.mem_filter.mp h).1

theorem registryConsistent_rdelete (r : Registry) (id : String)
    (hr : RegistryConsistent r) : RegistryConsistent (rdelete r id) := by
  intro p hp
  exact hr p (List.mem_filter.mp hp).1

theorem validUUID_ne_empty (s : String) (h : validUUID (some s) = true) :
    s ≠ "" := by
  intro he
  subst he
  simp [validUUID] at h

/-! Claim theorems. -/

/-- C1: the POST/GET router is a first-match decision table.  If the extracted
session id is present (truthy) and registered, the request is forwarded to the
registered transport with no registry mutation (RESUME).  Otherwise, if the
session id is absent and the body is an initialize message, a fresh
generated-id transport is created with nothing registered yet; if the session
id is present, unregistered, and passes the validator, a fresh transport is
created with that explicit id and registered under it (FRESH).  In particular
a syntactically valid id that is already registered always takes the RESUME
branch, never the FRESH branch. -/
theorem postRouting_decision_table :
    (∀ (r : Registry) (sid : Option String) (isInitMsg : Bool) (t : Transport),
        lookupTransport r sid = some t →
        postStep r sid isInitMsg = (PostOutcome.resume t, r)) ∧
    (∀ r : Registry,
        postStep r none true =
          (PostOutcome.fresh { sessionIdGeneratorPresent := true, sessionId := none }, r)) ∧
    (∀ (r : Registry) (s : String) (isInitMsg : Bool),
        rget r s = none → validUUID (some s) = true →
        postStep r (some s) isInitMsg =
          (PostOutcome.fresh { sessionIdGeneratorPresent := false, sessionId := some s },
           rput r s { sessionIdGeneratorPresent := false, sessionId := some s })) ∧
    (∀ (r : Registry) (s : String) (isInitMsg : Bool) (t : Transport),
        validUUID (some s) = true → rget r s = some t →
        (postStep r (some s) isInitMsg).1 = PostOutcome.resume t) := by
  refine ⟨?_, ?_, ?_, ?_⟩
  · intro r sid isInitMsg t h
    simp [postStep, h]
  · intro r
    simp [postStep, lookupTransport, present, validUUID, newTransport]
  · intro r s isInitMsg hget hvalid
    have hne := validUUID_ne_empty s hvalid
    simp [postStep, lookupTransport, hne, hget, hvalid, newTransport, present]
  · intro r s isInitMsg t hvalid hget
    have hne := validUUID_ne_empty s hvalid
    simp [postStep, lookupTransport, hne, hget]

theorem postRouting_decision_table_witness :
    postStep [] (some "123e4567-e89b-12d3-a456-426614174000") false =
      (PostOutcome.fresh
        { sessionIdGeneratorPresent := false
          sessionId := some "123e4567-e89b-12d3-a456-426614174000" },
       rput [] "123e4567-e89b-12d3-a456-426614174000"
        { sessionIdGeneratorPresent := false
          sessionId := some "123e4567-e89b-12d3-a456-426614174000" }) :=
  postRouting_decision_table.2.2.1 [] "123e4567-e89b-12d3-a456-426614174000" false
    (by decide) (by decide)

/-- C2: for every transport created by the lifecycle manager, in the explicit
mode immediately, and in the generated mode once the session-opening handshake
has set its id, invoking the close callback removes the id's registry entry,
so a get on that id afterwards returns none; in general registering a
transport under its own id and then closing it leaves the id absent (the close
callback is the same single function whether teardown or disconnect fired it). -/
theorem transportClose_removes_registry_entry :
    (∀ (r : Registry) (id : String), id ≠ "" →
        rget (oncloseCallback (newTransport r (some id)).2 (newTransport r (some id)).1) id =
          none) ∧
    (∀ (r : Registry) (t : Transport) (gid : String), gid ≠ "" →
        rget (oncloseCallback (onSessionInitialized r t gid).2 (onSessionInitialized r t gid).1)
          gid = none) ∧
    (∀ (r : Registry) (id : String) (t : Transport),
        t.sessionId = some id → id ≠ "" →
        rget (oncloseCallback (rput r id t) t) id = none) := by
  refine ⟨?_, ?_, ?_⟩
  · intro r id hne
    simp [newTransport, present, hne, oncloseCallback, rget_rdelete_self]
  · intro r t gid hne
    simp [onSessionInitialized, oncloseCallback, hne, rget_rdelete_self]
  · intro r id t ht hne
    simp [oncloseCallback, ht, hne, rget_rdelete_self]

theorem transportClose_removes_registry_entry_witness :
    rget
      (oncloseCallback (newTransport [] (some "123e4567-e89b-12d3-a456-426614174000")).2
        (newTransport [] (some "123e4567-e89b-12d3-a456-426614174000")).1)
      "123e4567-e89b-12d3-a456-426614174000" = none :=
  transportClose_removes_registry_entry.1 [] "123e4567-e89b-12d3-a456-426614174000"
    (by decide)

/-- C3: with an explicit session id, `newTransport` constructs a transport
with no id generator, sets the transport's `sessionId` to that id, and
registers the transport under that id synchronously before returning; with no
explicit id it constructs a transport with a generator, registers nothing, and
the registry put happens only inside the on-session-initialized callback,
under the generated id that callback receives. -/
theorem newTransport_two_modes :
    (∀ (r : Registry) (id : String), id ≠ "" →
        (newTransport r (some id)).1.sessionIdGeneratorPresent = false ∧
        (newTransport r (some id)).1.sessionId = some id ∧
        (newTransport r (some id)).2 = rput r id (newTransport r (some id)).1 ∧
        rget (newTransport r (some id)).2 id = some (newTransport r (some id)).1) ∧
    (∀ r : Registry,
        (newTransport r none).1.sessionIdGeneratorPresent = true ∧
        (newTransport r none).1.sessionId = none ∧
        (newTransport r none).2 = r) ∧
    (∀ (r : Registry) (t : Transport) (gid : String),
        (onSessionInitialized r t gid).1.sessionId = some gid ∧
        rget (onSessionInitialized r t gid).2 gid = some (onSessionInitialized r t gid).1) := by
  refine ⟨?_, ?_, ?_⟩
  · intro r id hne
    refine ⟨?_, ?_, ?_, ?_⟩ <;>
      simp [newTransport, present, hne, rget_rput_self]
  · intro r
    refine ⟨?_, ?_, ?_⟩ <;> simp [newTransport, present]
  · intro r t gid
    exact ⟨rfl, rget_rput_self r gid _⟩

theorem newTransport_two_modes_witness :
    (newTransport [] (some "abc")).1.sessionIdGeneratorPresent = false ∧
    (newTransport [] (some "abc")).1.sessionId = some "abc" ∧
    (newTransport [] (some "abc")).2 = rput [] "abc" (newTransport [] (some "abc")).1 ∧
    rget (newTransport [] (some "abc")).2 "abc" = some (newTransport [] (some "abc")).1 :=
  newTransport_two_modes.1 [] "abc" (by decide)

/-- C4: a POST/GET request that matches neither the RESUME case (truthy and
registered session id) nor the FRESH case (absent id with an initialize body,
or a validator-passing id) is answered with HTTP 404 and exactly the envelope
jsonrpc 2.0, error code -32000, message Bad Request: No valid session ID
provided, id null; no transport is created and the registry is unchanged. -/
theorem postRouting_reject_unroutable (r : Registry) (sid : Option String)
    (isInitMsg : Bool)
    (hres : lookupTransport r sid = none)
    (hfresh1 : ¬(present sid = false ∧ isInitMsg = true))
    (hfresh2 : validUUID sid = false) :
    postStep r sid isInitMsg =
      (PostOutcome.reject 404
        { jsonrpc := "2.0"
          errorCode := -32000
          errorMessage := "Bad Request: No valid session ID provided"
          id := none }, r) := by
  have hguard : ((!(present sid) && isInitMsg) || validUUID sid) = false := by
    cases hp : present sid <;> cases hi : isInitMsg <;> simp_all
  simp [postStep, hres, hguard, noValidSessionEnvelope]

theorem postRouting_reject_unroutable_witness :
    postStep [] none false =
      (PostOutcome.reject 404
        { jsonrpc := "2.0"
          errorCode := -32000
          errorMessage := "Bad Request: No valid session ID provided"
          id := none }, []) :=
  postRouting_reject_unroutable [] none false (by decide) (by decide) (by decide)

/-- C5: on DELETE, a truthy registered session id is forwarded to its
transport; otherwise the response is HTTP 400 with body Invalid or missing
session ID: followed by the supplied id truncated by slice(0, 8), or by the
literal none when no id was supplied. -/
theorem deleteRouting_spec :
    (∀ (r : Registry) (s : String) (t : Transport),
        s ≠ "" → rget r s = some t →
        getDelete r (some s) = DeleteOutcome.forwarded t) ∧
    (∀ (r : Registry) (s : String),
        s ≠ "" → rget r s = none →
        getDelete r (some s) =
          DeleteOutcome.badRequest ("Invalid or missing session ID: " ++ sliceJS s 8)) ∧
    (∀ r : Registry,
        getDelete r none =
          DeleteOutcome.badRequest "Invalid or missing session ID: none") := by
  refine ⟨?_, ?_, ?_⟩
  · intro r s t hne hget
    simp [getDelete, lookupTransport, hne, hget]
  · intro r s hne hget
    simp [getDelete, lookupTransport, hne, hget]
  · intro r
    simp [getDelete, lookupTransport]

theorem deleteRouting_spec_witness :
    getDelete [] (some "1234") =
      DeleteOutcome.badRequest "Invalid or missing session ID: 1234" := by
  have h := deleteRouting_spec.2.1 [] "1234" (by decide) (by decide)
  simpa using h

/-- C7: the header extractor returns none when the named header is absent,
the first element when the stored value is a sequence of strings, and the
stored scalar string unchanged otherwise. -/
theorem header_extraction_spec :
    (∀ (hs : Headers) (nm : String),
        headerLookup hs nm = none → header (some hs) nm = none) ∧
    (∀ (hs : Headers) (nm : String) (ss : List String),
        headerLookup hs nm = some (HeaderValue.seq ss) →
        header (some hs) nm = ss.head?) ∧
    (∀ (hs : Headers) (nm : String) (s : String),
        headerLookup hs nm = some (HeaderValue.scalar s) →
        header (some hs) nm = some s) := by
  refine ⟨?_, ?_, ?_⟩ <;> intro hs nm
  · intro h; simp [header, h]
  · intro ss h; simp [header, h]
  · intro s h; simp [header, h]

theorem header_extraction_spec_witness :
    header (some [("mcp-session-id", some (HeaderValue.seq ["abc", "def"]))])
      "mcp-session-id" = ["abc", "def"].head? :=
  header_extraction_spec.2.1 [("mcp-session-id", some (HeaderValue.seq ["abc", "def"]))]
    "mcp-session-id" ["abc", "def"] (by decide)

/-- C8: every middleware operation preserves the invariant that each registry
entry maps a session id to a transport whose own `sessionId` property equals
that id, and under the invariant a lookup never yields a transport bound to a
different session. -/
theorem registry_session_id_invariant :
    (∀ (r : Registry) (sid : Option String) (isInitMsg : Bool),
        RegistryConsistent r → RegistryConsistent (postStep r sid isInitMsg).2) ∧
    (∀ (r : Registry) (t : Transport) (gid : String),
        RegistryConsistent r → RegistryConsistent (onSessionInitialized r t gid).2) ∧
    (∀ (r : Registry) (t : Transport),
        RegistryConsistent r → RegistryConsistent (oncloseCallback r t)) ∧
    (∀ (r : Registry) (id : String) (t : Transport),
        RegistryConsistent r → rget r id = some t → t.sessionId = some id) := by
  refine ⟨?_, ?_, ?_, ?_⟩
  · intro r sid isInitMsg hr
    unfold postStep
    cases h : lookupTransport r sid with
    | some t => exact hr
    | none =>
      by_cases hguard : ((!(present sid) && isInitMsg) || validUUID sid) = true
      · simp only [hguard, if_true]
        unfold newTransport
        by_cases hp : present sid = true
        · simp only [hp, if_true]
          exact registryConsistent_rput r _ _ hr rfl
        · simp only [Bool.not_eq_true] at hp
          simp only [hp, Bool.false_eq_true, if_false]
          exact hr
      · simp only [Bool.not_eq_true] at hguard
        simp only [hguard, Bool.false_eq_true, if_false]
        exact hr
  · intro r t gid hr
    exact registryConsistent_rput r _ _ hr rfl
  · intro r t hr
    unfold oncloseCallback
    cases t.sessionId with
    | none => exact hr
    | some id =>
      by_cases h : id = ""
      · simp only [h, if_pos rfl]; exact hr
      · simp only [if_neg h]
        exact registryConsistent_rdelete r id hr
  · intro r id t hr hget
    exact hr (id, t) (rget_eq_some_mem r id t hget)

theorem registry_session_id_invariant_witness :
    ({ sessionIdGeneratorPresent := false
       sessionId := some "123e4567-e89b-12d3-a456-426614174000" } : Transport).sessionId =
      some "123e4567-e89b-12d3-a456-426614174000" :=
  registry_session_id_invariant.2.2.2
    [("123e4567-e89b-12d3-a456-426614174000",
      { sessionIdGeneratorPresent := false
        sessionId := some "123e4567-e89b-12d3-a456-426614174000" })]
    "123e4567-e89b-12d3-a456-426614174000"
    { sessionIdGeneratorPresent := false
      sessionId := some "123e4567-e89b-12d3-a456-426614174000" }
    (by intro p hp; rw [List.mem_singleton] at hp; subst hp; rfl) (by decide)

/-- C10: the header extractor is total at its public interface: a missing
headers mapping yields none rather than a failure, and a named header bound
to an empty sequence yields none (indexing the first element of an empty
array is undefined, not an error). -/
theorem header_total_on_degenerate_inputs :
    (∀ nm : String, header none nm = none) ∧
    (∀ (hs : Headers) (nm : String),
        headerLookup hs nm = some (HeaderValue.seq []) →
        header (some hs) nm = none) := by
  refine ⟨?_, ?_⟩
  · intro nm; rfl
  · intro hs nm h
    simp [header, h]

theorem matchDash_eq_some (cs rest : List Char) :
    matchDash cs = some rest ↔ cs = '-' :: rest := by
  cases cs with
  | nil => simp [matchDash]
  | cons c cs =>
    by_cases h : c = '-'
    · subst h; simp [matchDash]
    · simp [matchDash, h]

theorem matchHexRun_eq_some (n : Nat) :
    ∀ cs rest : List Char,
      matchHexRun n cs = some rest ↔
        ∃ g : List Char, cs = g ++ rest ∧ g.length = n ∧ ∀ c ∈ g, isHexDigit c = true := by
  induction n with
  | zero =>
    intro cs rest
    simp only [matchHexRun, Option.some.injEq]
    constructor
    · rintro rfl
      exact ⟨[], by simp⟩
    · rintro ⟨g, rfl, hlen, -⟩
      simp [List.length_eq_zero.mp hlen]
  | succ n ih =>
    intro cs rest
    cases cs with
    | nil =>
      simp only [matchHexRun]
      constructor
      · intro h; exact Option.noConfusion h
      · rintro ⟨g, hg, hlen, -⟩
        obtain ⟨rfl, -⟩ := List.append_eq_nil.mp hg.symm
        simp at hlen
    | cons c cs2 =>
      simp only [matchHexRun]
      by_cases hc : isHexDigit c
      · rw [if_pos hc, ih]
        constructor
        · rintro ⟨g, rfl, hlen, hhex⟩
          refine ⟨c :: g, rfl, by simp [hlen], ?_⟩
          intro x hx
          rcases List.mem_cons.mp hx with rfl | hx
          · exact hc
          · exact hhex x hx
        · rintro ⟨g, hg, hlen, hhex⟩
          cases g with
          | nil => simp at hlen
          | cons d g2 =>
            simp only [List.cons_append, List.cons.injEq] at hg
            obtain ⟨rfl, hcs⟩ := hg
            exact ⟨g2, hcs, by simpa using hlen,
              fun x hx => hhex x (List.mem_cons_of_mem _ hx)⟩
      · rw [if_neg hc]
        constructor
        · intro h; exact Option.noConfusion h
        · rintro ⟨g, hg, hlen, hhex⟩
          cases g with
          | nil => simp at hlen
          | cons d g2 =>
            simp only [List.cons_append, List.cons.injEq] at hg
            obtain ⟨rfl, -⟩ := hg
            exact absurd (hhex c (List.mem_cons_self c g2)) hc

theorem uuidRegexTest_iff (cs : List Char) :
    uuidRegexTest cs = true ↔
      ∃ g1 g2 g3 g4 g5 : List Char,
        cs = g1 ++ '-' :: (g2 ++ '-' :: (g3 ++ '-' :: (g4 ++ '-' :: g5))) ∧
        isHexGroup g1 8 ∧ isHexGroup g2 4 ∧ isHexGroup g3 4 ∧
        isHexGroup g4 4 ∧ isHexGroup g5 12 := by
  unfold uuidRegexTest
  rw [decide_eq_true_iff]
  constructor
  · intro h
    obtain ⟨r1, h1, hb1⟩ := Option.bind_eq_some.mp h
    obtain ⟨g1, rfl, hl1, hh1⟩ := (matchHexRun_eq_some 8 _ _).mp h1
    obtain ⟨r2, h2, hb2⟩ := Option.bind_eq_some.mp hb1
    obtain rfl := (matchDash_eq_some _ _).mp h2
    obtain ⟨r3, h3, hb3⟩ := Option.bind_eq_some.mp hb2
    obtain ⟨g2, rfl, hl2, hh2⟩ := (matchHexRun_eq_some 4 _ _).mp h3
    obtain ⟨r4, h4, hb4⟩ := Option.bind_eq_some.mp hb3
    obtain rfl := (matchDash_eq_some _ _).mp h4
    obtain ⟨r5, h5, hb5⟩ := Option.bind_eq_some.mp hb4
    obtain ⟨g3, rfl, hl3, hh3⟩ := (matchHexRun_eq_some 4 _ _).mp h5
    obtain ⟨r6, h6, hb6⟩ := Option.bind_eq_some.mp hb5
    obtain rfl := (matchDash_eq_some _ _).mp h6
    obtain ⟨r7, h7, hb7⟩ := Option.bind_eq_some.mp hb6
    obtain ⟨g4, rfl, hl4, hh4⟩ := (matchHexRun_eq_some 4 _ _).mp h7
    obtain ⟨r8, h8, hb8⟩ := Option.bind_eq_some.mp hb7
    obtain rfl := (matchDash_eq_some _ _).mp h8
    obtain ⟨g5, rfl, hl5, hh5⟩ := (matchHexRun_eq_some 12 _ _).mp hb8
    exact ⟨g1, g2, g3, g4, g5, by simp, ⟨hl1, hh1⟩, ⟨hl2, hh2⟩,
      ⟨hl3, hh3⟩, ⟨hl4, hh4⟩, ⟨hl5, hh5⟩⟩
  · rintro ⟨g1, g2, g3, g4, g5, rfl, ⟨hl1, hh1⟩, ⟨hl2, hh2⟩, ⟨hl3, hh3⟩,
      ⟨hl4, hh4⟩, ⟨hl5, hh5⟩⟩
    refine Option.bind_eq_some.mpr
      ⟨_, (matchHexRun_eq_some 8 _ _).mpr ⟨g1, rfl, hl1, hh1⟩, ?_⟩
    refine Option.bind_eq_some.mpr ⟨_, (matchDash_eq_some _ _).mpr rfl, ?_⟩
    refine Option.bind_eq_some.mpr
      ⟨_, (matchHexRun_eq_some 4 _ _).mpr ⟨g2, rfl, hl2, hh2⟩, ?_⟩
    refine Option.bind_eq_some.mpr ⟨_, (matchDash_eq_some _ _).mpr rfl, ?_⟩
    refine Option.bind_eq_some.mpr
      ⟨_, (matchHexRun_eq_some 4 _ _).mpr ⟨g3, rfl, hl3, hh3⟩, ?_⟩
    refine Option.bind_eq_some.mpr ⟨_, (matchDash_eq_some _ _).mpr rfl, ?_⟩
    refine Option.bind_eq_some.mpr
      ⟨_, (matchHexRun_eq_some 4 _ _).mpr ⟨g4, rfl, hl4, hh4⟩, ?_⟩
    refine Option.bind_eq_some.mpr ⟨_, (matchDash_eq_some _ _).mpr rfl, ?_⟩
    exact (matchHexRun_eq_some 12 _ _).mpr ⟨g5, (List.append_nil g5).symm, hl5, hh5⟩

/-- C6: the session-id validator returns true if and only if its input is
present, non-empty, and matches exactly the 8-4-4-4-12 pattern of hexadecimal
groups separated by hyphens, case-insensitively, with nothing around; absent,
empty, wrong-group-length, or non-hex inputs give false. -/
theorem validUUID_iff_uuidShape (id : Option String) :
    validUUID id = true ↔ ∃ s, id = some s ∧ s ≠ "" ∧ uuidShape s := by
  cases id with
  | none => simp [validUUID]
  | some s =>
    by_cases hs : s = ""
    · subst hs
      constructor
      · intro h; simp [validUUID] at h
      · rintro ⟨s2, hs2, hne, -⟩
        injection hs2 with h2
        exact absurd h2.symm hne
    · rw [show validUUID (some s) = uuidRegexTest s.data by simp [validUUID, hs]]
      rw [uuidRegexTest_iff]
      constructor
      · intro h
        exact ⟨s, rfl, hs, h⟩
      · rintro ⟨s2, hs2, -, hshape⟩
        injection hs2 with h2
        subst h2
        exact hshape

theorem header_total_on_degenerate_inputs_witness :
    header (some [("mcp-session-id", some (HeaderValue.seq []))]) "mcp-session-id" = none :=
  header_total_on_degenerate_inputs.2 [("mcp-session-id", some (HeaderValue.seq []))]
    "mcp-session-id" (by decide)

/-! JSON string codec round trip. -/

theorem fromHexDigit_toHexDigit : ∀ n : Nat, n < 16 → fromHexDigit (toHexDigit n) = some n := by
  decide

theorem decodeChars_escQuote (rest : List Char) :
    decodeChars ('\\' :: '"' :: rest) = consDecoded '"' (decodeChars rest) := by
  rw [decodeChars.eq_def]
  rfl

theorem decodeChars_escBackslash (rest : List Char) :
    decodeChars ('\\' :: '\\' :: rest) = consDecoded '\\' (decodeChars rest) := by
  rw [decodeChars.eq_def]
  rfl

theorem decodeChars_escB (rest : List Char) :
    decodeChars ('\\' :: 'b' :: rest) = consDecoded (Char.ofNat 8) (decodeChars rest) := by
  rw [decodeChars.eq_def]
  rfl

theorem decodeChars_escT (rest : List Char) :
    decodeChars ('\\' :: 't' :: rest) = consDecoded (Char.ofNat 9) (decodeChars rest) := by
  rw [decodeChars.eq_def]
  rfl

theorem decodeChars_escN (rest : List Char) :
    decodeChars ('\\' :: 'n' :: rest) = consDecoded (Char.ofNat 10) (decodeChars rest) := by
  rw [decodeChars.eq_def]
  rfl

theorem decodeChars_escF (rest : List Char) :
    decodeChars ('\\' :: 'f' :: rest) = consDecoded (Char.ofNat 12) (decodeChars rest) := by
  rw [decodeChars.eq_def]
  rfl

theorem decodeChars_escR (rest : List Char) :
    decodeChars ('\\' :: 'r' :: rest) = consDecoded (Char.ofNat 13) (decodeChars rest) := by
  rw [decodeChars.eq_def]
  rfl

theorem decodeChars_escU (h1 h2 h3 h4 : Char) (rest : List Char) :
    decodeChars ('\\' :: 'u' :: h1 :: h2 :: h3 :: h4 :: rest) =
      match fromHexDigit h1, fromHexDigit h2, fromHexDigit h3, fromHexDigit h4 with
      | some a, some b, some c2, some d =>
        consDecoded (Char.ofNat (((a * 16 + b) * 16 + c2) * 16 + d)) (decodeChars rest)
      | _, _, _, _ => none := by
  rw [decodeChars.eq_def]
  rfl

theorem decodeChars_plain (c : Char) (rest : List Char) (h1 : ¬c = '"')
    (h2 : ¬c = '\\') (h3 : ¬c.toNat < 32) :
    decodeChars (c :: rest) = consDecoded c (decodeChars rest) := by
  rw [decodeChars.eq_def]
  simp only []
  rw [if_neg h1, if_neg h2, if_neg h3]

theorem decodeChars_flatMap_encode (cs : List Char) :
    decodeChars (cs.flatMap encodeChar ++ ['"']) = some (cs, []) := by
  induction cs with
  | nil => rfl
  | cons c cs ih =>
    rw [List.flatMap_cons, List.append_assoc]
    by_cases e1 : c = '"'
    · subst e1
      rw [show encodeChar '"' = ['\\', '"'] from rfl]
      simp only [List.cons_append, List.nil_append]
      rw [decodeChars_escQuote, ih]
      rfl
    · by_cases e2 : c = '\\'
      · subst e2
        rw [show encodeChar '\\' = ['\\', '\\'] from rfl]
        simp only [List.cons_append, List.nil_append]
        rw [decodeChars_escBackslash, ih]
        rfl
      · by_cases e3 : c = Char.ofNat 8
        · subst e3
          rw [show encodeChar (Char.ofNat 8) = ['\\', 'b'] from rfl]
          simp only [List.cons_append, List.nil_append]
          rw [decodeChars_escB, ih]
          rfl
        · by_cases e4 : c = Char.ofNat 9
          · subst e4
            rw [show encodeChar (Char.ofNat 9) = ['\\', 't'] from rfl]
            simp only [List.cons_append, List.nil_append]
            rw [decodeChars_escT, ih]
            rfl
          · by_cases e5 : c = Char.ofNat 10
            · subst e5
              rw [show encodeChar (Char.ofNat 10) = ['\\', 'n'] from rfl]
              simp only [List.cons_append, List.nil_append]
              rw [decodeChars_escN, ih]
              rfl
            · by_cases e6 : c = Char.ofNat 12
              · subst e6
                rw [show encodeChar (Char.ofNat 12) = ['\\', 'f'] from rfl]
                simp only [List.cons_append, List.nil_append]
                rw [decodeChars_escF, ih]
                rfl
              · by_cases e7 : c = Char.ofNat 13
                · subst e7
                  rw [show encodeChar (Char.ofNat 13) = ['\\', 'r'] from rfl]
                  simp only [List.cons_append, List.nil_append]
                  rw [decodeChars_escR, ih]
                  rfl
                · by_cases e8 : c.toNat < 32
                  · have henc : encodeChar c =
                        ['\\', 'u', '0', '0', toHexDigit (c.toNat / 16),
                          toHexDigit (c.toNat % 16)] := by
                      unfold encodeChar
                      rw [if_neg e1, if_neg e2, if_neg e3, if_neg e4, if_neg e5,
                        if_neg e6, if_neg e7, if_pos e8]
                    rw [henc]
                    simp only [List.cons_append, List.nil_append]
                    rw [decodeChars_escU]
                    have q1 : fromHexDigit '0' = some 0 := rfl
                    have q2 : fromHexDigit (toHexDigit (c.toNat / 16)) = some (c.toNat / 16) :=
                      fromHexDigit_toHexDigit _ (by omega)
                    have q3 : fromHexDigit (toHexDigit (c.toNat % 16)) = some (c.toNat % 16) :=
                      fromHexDigit_toHexDigit _ (by omega)
                    simp only [q1, q2, q3]
                    rw [ih]
                    have harith : ((((0 : Nat) * 16 + 0) * 16 + c.toNat / 16) * 16 +
                        c.toNat % 16) = c.toNat := by omega
                    rw [harith, Char.ofNat_toNat]
                    rfl
                  · have henc : encodeChar c = [c] := by
                      unfold encodeChar
                      rw [if_neg e1, if_neg e2, if_neg e3, if_neg e4, if_neg e5,
                        if_neg e6, if_neg e7, if_neg e8]
                    rw [henc]
                    simp only [List.cons_append, List.nil_append]
                    rw [decodeChars_plain c _ e1 e2 e8, ih]
                    rfl

theorem jsonParse_stringify (s : String) :
    jsonParseString (jsonStringifyString s) = some s := by
  unfold jsonParseString jsonStringifyString
  show (match decodeChars (s.data.flatMap encodeChar ++ ['"']) with
        | some (content, []) => some (String.mk content)
        | _ => none) = some s
  rw [decodeChars_flatMap_encode]

/-- C9 counterexample: the round trip fails for the non-none session id made
of the empty string, because `loadGame` treats a falsy id like an absent one:
after saving under `some ""`, loading under `some ""` returns none rather than
any game carrying the saved position. -/
theorem store_roundtrip_fails_on_empty_id :
    ¬∃ g2 : ChessGame,
        loadGame (saveGame [] (some "") { fen := "fenX", history := [] }) (some "") =
          Except.ok (some g2) := by
  have h : loadGame (saveGame [] (some "") { fen := "fenX", history := [] }) (some "") =
      Except.ok none := by rfl
  rintro ⟨g2, hg⟩
  rw [h] at hg
  exact Option.noConfusion (Except.ok.inj hg)

/-- C9 (amended): for every non-none and non-empty session id and every game,
loading after saving returns a game whose FEN equals the saved game's FEN and
whose move history is empty — only the FEN string is serialized; and loading
with a none session id returns none even if a save under the none id
occurred. -/
theorem store_roundtrip_amended (fs : FS) (s : String) (g : ChessGame)
    (h : s ≠ "") :
    loadGame (saveGame fs (some s) g) (some s) =
      Except.ok (some { fen := g.fen, history := [] }) ∧
    (∀ (fs2 : FS) (g2 : ChessGame),
        loadGame (saveGame fs2 none g2) none = Except.ok none) := by
  constructor
  · have hex : existsSyncFS (saveGame fs (some s) g) (gamePath (some s)) = true := by
      simp [existsSyncFS, saveGame, writeFileFS, List.find?_cons]
    have hread : readFileFS (saveGame fs (some s) g) (gamePath (some s)) =
        some (jsonStringifyString g.fen) := by
      simp [readFileFS, saveGame, writeFileFS, List.find?_cons]
    simp [loadGame, hex, hread, present, h, jsonParse_stringify, chessFromFen]
  · intro fs2 g2
    simp [loadGame, present]

theorem store_roundtrip_amended_witness :
    loadGame (saveGame [] (some "abc") { fen := "fenX", history := ["e4"] }) (some "abc") =
      Except.ok (some { fen := "fenX", history := [] }) :=
  (store_roundtrip_amended [] "abc" { fen := "fenX", history := ["e4"] } (by decide)).1

end ChessMcp
